import Mathlib

/-!
Verification of the flamegraph subsystem of iai-callgrind
(src/iai-callgrind-runner/src/runner/flamegraph.rs), as a shallow
embedding in Lean 4.  Pure data types and functions are translated
directly from the Rust source; filesystem and renderer effects are made
explicit via a `World` state and an operation trace.  External
collaborator types (`Costs`, `EventType`, `CallgrindOutput`) are
modelled from the spec, as noted on their definitions.
-/

/-- Modelled from the spec: the external cost-snapshot type (defined in
the callgrind parser module, which is not part of this subsystem's
source).  Per the spec it is a mapping from event-type identifier to a
numeric cost, queried by event type, where absence is distinct from
zero.  We represent the mapping as an association list. -/
structure Costs where
  map : List (String × Nat)
deriving DecidableEq, Repr

/-- Association-list lookup used by the `Costs` model. -/
def findVal : List (String × Nat) → String → Option Nat
  | [], _ => none
  | kv :: rest, k => if kv.1 = k then some kv.2 else findVal rest k

/-- Modelled from the spec: `cost_by_type` exposes the cost recorded for
one event type, `none` when the event type has no entry. -/
def Costs.cost_by_type (c : Costs) (ev : String) : Option Nat :=
  findVal c.map ev

/-- Modelled from the spec: event types are named identifiers whose
display form (used as the renderer's metric label and in error
messages) is the identifier itself.  We use `String` directly. -/
abbrev EventType := String

/-- From `struct StackEntry`: one call-frame label plus its
inline flag. -/
structure StackEntry where
  is_inline : Bool
  value : String
deriving DecidableEq, Repr

/-- From `impl Display for StackEntry`: renders as `[value]` when the
inline flag is set, else as `value`. -/
def StackEntry.display (e : StackEntry) : String :=
  if e.is_inline then "[" ++ e.value ++ "]" else e.value

/-- From `struct Stack`: root-to-leaf entry sequence plus the cost
snapshot. -/
structure Stack where
  entries : List StackEntry
  costs : Costs
deriving DecidableEq, Repr

/-- From `Stack::new`: singleton stack with one entry and the given
cost snapshot. -/
def Stack.new (item : String) (costs : Costs) (is_inline : Bool) : Stack :=
  { entries := [{ value := item, is_inline := is_inline }], costs := costs }

/-- From `Stack::add`: pushes one entry at the end and overwrites the
cost snapshot with the supplied one. -/
def Stack.add (s : Stack) (item : String) (costs : Costs) (is_inline : Bool) : Stack :=
  { entries := s.entries ++ [{ value := item, is_inline := is_inline }], costs := costs }

/-- From `Stack::contains`: reverse traversal, true iff some entry has
equal inline flag and equal label. -/
def Stack.contains (s : Stack) (item : String) (is_inline : Bool) : Bool :=
  s.entries.reverse.any (fun e => e.is_inline == is_inline && e.value == item)

/-- From `Stack::to_string`: the folded-stack line for one event type.
Empty entry list yields the empty string with no cost lookup; otherwise
entries are written first-then-suffix joined by a semicolon, and the
cost for the event type is appended after a space, failing when the
snapshot has no entry for the event type. -/
def Stack.to_string (s : Stack) (event_type : EventType) : Except String String :=
  match s.entries with
  | [] => Except.ok ""
  | first :: suffix =>
    let pathStr := suffix.foldl (fun acc e => acc ++ ";" ++ e.display) first.display
    match s.costs.cost_by_type event_type with
    | some cost => Except.ok (pathStr ++ " " ++ toString cost)
    | none => Except.error
        ("Error creating flamegraph: Event type '" ++ event_type ++ "' not found")

/-- From `struct Stacks`: the ordered collection of materialized
stacks. -/
structure Stacks where
  list : List Stack
deriving DecidableEq, Repr

/-- From `Stacks::is_empty`. -/
def Stacks.is_empty (ss : Stacks) : Bool :=
  ss.list.isEmpty

/-- From `Stacks::push`: appends one fully built stack. -/
def Stacks.push (ss : Stacks) (v : Stack) : Stacks :=
  { list := ss.list ++ [v] }

/-- From `Stacks::add`: clones the base stack and extends it when a
base is given, else builds a fresh singleton; the result is pushed. -/
def Stacks.add (ss : Stacks) (item : String) (costs : Costs) (is_inline : Bool)
    (base : Option Stack) : Stacks :=
  let stack :=
    match base with
    | some last => last.add item costs is_inline
    | none => Stack.new item costs is_inline
  ss.push stack

/-- A stack built by the public constructor `Stack::new` followed by a
sequence of `Stack::add` calls, each carrying (label, costs, flag). -/
def buildStack (label : String) (costs : Costs) (is_inline : Bool)
    (adds : List (String × Costs × Bool)) : Stack :=
  adds.foldl (fun s a => s.add a.1 a.2.1 a.2.2) (Stack.new label costs is_inline)

/-- The snapshot supplied by the most recent call: the last element of
`adds` when present, the constructor's snapshot otherwise. -/
def finalSnapshot (costs : Costs) (adds : List (String × Costs × Bool)) : Costs :=
  adds.foldl (fun _ a => a.2.1) costs

/-- Spec-side rendering of a single label: wrapped in brackets iff the
inline flag is set. -/
def displayLabel (label : String) (is_inline : Bool) : String :=
  if is_inline then "[" ++ label ++ "]" else label

/-- Spec-side join of rendered labels with a semicolon separator. -/
def joinSemi : List String → String
  | [] => ""
  | [x] => x
  | x :: y :: rest => x ++ ";" ++ joinSemi (y :: rest)

/-- The (label, inline-flag) sequence a built stack should carry. -/
def labelSeq (label : String) (is_inline : Bool)
    (adds : List (String × Costs × Bool)) : List (String × Bool) :=
  (label, is_inline) :: adds.map (fun a => (a.1, a.2.2))

/-- Modelled from the spec: the external `CallgrindOutput` path type.
The subsystem only derives sibling paths from it by replacing the
extension (`with_extension`), so we model a path as a stem plus an
extension. -/
structure OutPath where
  stem : String
  ext : String
deriving DecidableEq, Repr

/-- Modelled from the spec: `with_extension` replaces the extension,
keeping the stem — the fixed extension convention used to derive the
`.svg` destination and its `.svg.old` sibling. -/
def withExtension (p : OutPath) (e : String) : OutPath :=
  { stem := p.stem, ext := e }

/-- One observable filesystem or renderer action performed by the
subsystem, recorded in order. -/
inductive FsOp where
  | copyOp (src dst : OutPath)
  | createOp (path : OutPath)
  | renderOp (title countName : String) (lines : List String) (path : OutPath)
deriving DecidableEq, Repr

/-- The explicit state against which the subsystem's effects run: the
file contents, plus oracles deciding which copy, create and render
calls fail (modelling external I/O and renderer failures), and the
bytes the external renderer writes on success. -/
structure World where
  files : OutPath → Option String
  copyFails : OutPath → OutPath → Bool
  createFails : OutPath → Bool
  renderFails : String → String → List String → Bool
  renderOutput : String → String → List String → String

/-- File-content update: the destination path now maps to the given
content, every other path is unchanged; the oracles are unchanged. -/
def World.setFile (w : World) (p : OutPath) (c : String) : World :=
  { w with files := fun q => if q = p then some c else w.files q }

/-- Appending to an open file handle (writes to an already-created
file accumulate). -/
def World.appendFile (w : World) (p : OutPath) (c : String) : World :=
  w.setFile p (((w.files p).getD "") ++ c)

/-- From `std::fs::copy` as used by `FlamegraphOutput::init`: fails
when the I/O oracle says so, otherwise duplicates the source content at
the destination. -/
def World.copy (w : World) (src dst : OutPath) : Except String World :=
  if w.copyFails src dst then Except.error "Error copying flamegraph file"
  else
    match w.files src with
    | some c => Except.ok (w.setFile dst c)
    | none => Except.error "Error copying flamegraph file"

/-- The resolved flamegraph destination, from
`pub struct FlamegraphOutput(pub PathBuf)`. -/
structure FlamegraphOutput where
  path : OutPath
deriving DecidableEq, Repr

/-- From `FlamegraphOutput::init`: resolves the `.svg` path; when a
file already exists there, first copies it to the `.svg.old` sibling
(propagating a copy failure as an error); returns the resolved,
not-yet-opened destination together with the updated world and the
trace of actions taken. -/
def FlamegraphOutput.init (w : World) (output : OutPath) :
    Except String (FlamegraphOutput × World × List FsOp) :=
  let path := withExtension output "svg"
  if (w.files path).isSome then
    let oldSvg := withExtension path "svg.old"
    match w.copy path oldSvg with
    | Except.error e => Except.error e
    | Except.ok w1 => Except.ok ({ path := path }, w1, [FsOp.copyOp path oldSvg])
  else
    Except.ok ({ path := path }, w, [])

/-- From `FlamegraphOutput::create`: `File::create` opens the
destination for writing, truncating it to empty content; a filesystem
failure is surfaced as an error. -/
def FlamegraphOutput.create (w : World) (o : FlamegraphOutput) : Except String World :=
  if w.createFails o.path then Except.error "Creating flamegraph file failed"
  else Except.ok (w.setFile o.path "")

/-- From the serialization loop in `Flamegraph::create`: every stack in
insertion order is rendered to its folded-stack line, the first failing
stack aborting with its error. -/
def serializeStacks : List Stack → EventType → Except String (List String)
  | [], _ => Except.ok []
  | s :: rest, ev =>
    match s.to_string ev with
    | Except.error e => Except.error e
    | Except.ok line =>
      match serializeStacks rest ev with
      | Except.error e => Except.error e
      | Except.ok lines => Except.ok (line :: lines)

/-- From `struct Flamegraph`: the one-shot render request. -/
structure Flamegraph where
  types : List EventType
  title : String
  stackColl : Stacks

/-- The per-event-type loop of `Flamegraph::create`: for each event
type in order, build options carrying the title and the event type's
display name as count name, serialize every stack (a failure aborts),
then invoke the renderer on the shared destination handle (a renderer
failure aborts; on success the renderer's output is appended to the
open file). -/
def renderLoop (title : String) (stacksL : List Stack) (p : OutPath) :
    List EventType → World → List FsOp → Except String Unit × World × List FsOp
  | [], w, tr => (Except.ok (), w, tr)
  | ev :: evs, w, tr =>
    match serializeStacks stacksL ev with
    | Except.error e => (Except.error e, w, tr)
    | Except.ok lines =>
      let tr2 := tr ++ [FsOp.renderOp title ev lines p]
      if w.renderFails title ev lines then
        (Except.error "Creating flamegraph file failed", w, tr2)
      else
        renderLoop title stacksL p evs (w.appendFile p (w.renderOutput title ev lines)) tr2

/-- From `Flamegraph::create`: empty stack collections succeed at once
with a warning and touch nothing; otherwise the destination is opened
once via `output.create()` and every configured event type is rendered
in order into the shared handle. -/
def Flamegraph.create (fg : Flamegraph) (dest : FlamegraphOutput) (w : World) :
    Except String Unit × World × List FsOp :=
  if fg.stackColl.is_empty then (Except.ok (), w, [])
  else
    match FlamegraphOutput.create w dest with
    | Except.error e => (Except.error e, w, [])
    | Except.ok w1 =>
      renderLoop fg.title fg.stackColl.list dest.path fg.types w1 [FsOp.createOp dest.path]

/-- A convenient world with all I/O succeeding, used to instantiate
theorems at concrete inputs. -/
def mkWorld (files : OutPath → Option String) : World :=
  { files := files
    copyFails := fun _ _ => false
    createFails := fun _ => false
    renderFails := fun _ _ _ => false
    renderOutput := fun _ _ _ => "" }

lemma foldl_add_entries (adds : List (String × Costs × Bool)) :
    ∀ s : Stack,
      (adds.foldl (fun s a => s.add a.1 a.2.1 a.2.2) s).entries
        = s.entries ++ adds.map (fun a => StackEntry.mk a.2.2 a.1) := by
  induction adds with
  | nil => intro s; simp
  | cons a rest ih =>
    intro s
    simp only [List.foldl_cons, List.map_cons]
    rw [ih]
    simp [Stack.add]

lemma foldl_add_costs (adds : List (String × Costs × Bool)) :
    ∀ s : Stack,
      (adds.foldl (fun s a => s.add a.1 a.2.1 a.2.2) s).costs
        = adds.foldl (fun _ a => a.2.1) s.costs := by
  induction adds with
  | nil => intro s; rfl
  | cons a rest ih =>
    intro s
    simp only [List.foldl_cons]
    rw [ih]
    rfl

lemma buildStack_entries (label : String) (costs : Costs) (inl : Bool)
    (adds : List (String × Costs × Bool)) :
    (buildStack label costs inl adds).entries
      = StackEntry.mk inl label :: adds.map (fun a => StackEntry.mk a.2.2 a.1) := by
  unfold buildStack
  rw [foldl_add_entries]
  rfl

lemma buildStack_costs (label : String) (costs : Costs) (inl : Bool)
    (adds : List (String × Costs × Bool)) :
    (buildStack label costs inl adds).costs = finalSnapshot costs adds := by
  unfold buildStack finalSnapshot
  rw [foldl_add_costs]
  rfl

lemma buildStack_eq (label : String) (costs : Costs) (inl : Bool)
    (adds : List (String × Costs × Bool)) :
    buildStack label costs inl adds
      = Stack.mk (StackEntry.mk inl label :: adds.map (fun a => StackEntry.mk a.2.2 a.1))
          (finalSnapshot costs adds) := by
  rw [← buildStack_entries, ← buildStack_costs]

lemma foldl_semi_append (l : List StackEntry) :
    ∀ a b : String,
      l.foldl (fun acc e => acc ++ ";" ++ e.display) (a ++ b)
        = a ++ l.foldl (fun acc e => acc ++ ";" ++ e.display) b := by
  induction l with
  | nil => intro a b; rfl
  | cons e rest ih =>
    intro a b
    simp only [List.foldl_cons]
    have h2 : a ++ b ++ ";" ++ e.display = a ++ (b ++ ";" ++ e.display) := by
      rw [String.append_assoc b, String.append_assoc (a ++ b), String.append_assoc a]
    rw [h2, ih a (b ++ ";" ++ e.display)]

lemma foldl_semi_join (suffix : List StackEntry) :
    ∀ first : StackEntry,
      suffix.foldl (fun acc e => acc ++ ";" ++ e.display) first.display
        = joinSemi ((first :: suffix).map StackEntry.display) := by
  induction suffix with
  | nil => intro first; rfl
  | cons e rest ih =>
    intro first
    simp only [List.foldl_cons]
    have h1 : first.display ++ ";" ++ e.display = (first.display ++ ";") ++ e.display := by
      rw [String.append_assoc]
    rw [h1, foldl_semi_append, ih e]
    simp only [List.map_cons, joinSemi, String.append_assoc]

/-- Claim C1: for every Stack built by the public constructor
followed by zero or more add calls, rendering it for an event type
present in the last-supplied cost snapshot yields exactly the entry
labels joined by a semicolon in insertion order, each wrapped in
brackets iff its inline flag is set, followed by a single space and the
cost for that event type taken from the most recently supplied
snapshot. -/
theorem stack_render_last_snapshot (label : String) (costs : Costs) (inl : Bool)
    (adds : List (String × Costs × Bool)) (ev : EventType) (c : Nat)
    (h : (finalSnapshot costs adds).cost_by_type ev = some c) :
    (buildStack label costs inl adds).to_string ev
      = Except.ok
          (joinSemi ((labelSeq label inl adds).map (fun p => displayLabel p.1 p.2))
            ++ " " ++ toString c) := by
  rw [buildStack_eq]
  unfold Stack.to_string
  simp only [h, foldl_semi_join]
  have hmap :
      (StackEntry.mk inl label :: adds.map (fun a => StackEntry.mk a.2.2 a.1)).map
          StackEntry.display
        = (labelSeq label inl adds).map (fun p => displayLabel p.1 p.2) := by
    simp [labelSeq, StackEntry.display, displayLabel, List.map_map, Function.comp]
  rw [hmap]

/-- Witness for C1: the end-to-end example from the spec, with the
constructor snapshot and an intermediate snapshot overwritten by the
final one. -/
theorem stack_render_last_snapshot_witness :
    (finalSnapshot (Costs.mk [("Ir", 1)])
        [("inline_helper", Costs.mk [("Ir", 2)], true),
         ("work", Costs.mk [("Ir", 42)], false)]).cost_by_type "Ir" = some 42
    ∧ (buildStack "main" (Costs.mk [("Ir", 1)]) false
        [("inline_helper", Costs.mk [("Ir", 2)], true),
         ("work", Costs.mk [("Ir", 42)], false)]).to_string "Ir"
      = Except.ok "main;[inline_helper];work 42" := by
  refine ⟨by decide, ?_⟩
  rw [stack_render_last_snapshot "main" (Costs.mk [("Ir", 1)]) false
      [("inline_helper", Costs.mk [("Ir", 2)], true),
       ("work", Costs.mk [("Ir", 42)], false)] "Ir" 42 (by decide)]
  rfl

/-- Claim C4: adding to the collection with a base stack appends
exactly one new stack whose entry sequence is the base's entries
followed by one new entry, whose snapshot is the newly supplied one,
while the base stack's own entries and costs are unchanged and the
collection's previous elements are untouched. -/
theorem stacks_add_with_base (ss : Stacks) (label : String) (costs : Costs)
    (inl : Bool) (s : Stack) :
    (Stacks.add ss label costs inl (some s)).list
        = ss.list ++ [Stack.mk (s.entries ++ [StackEntry.mk inl label]) costs]
    ∧ (Stack.add s label costs inl).entries = s.entries ++ [StackEntry.mk inl label]
    ∧ (Stack.add s label costs inl).costs = costs
    ∧ s = Stack.mk s.entries s.costs :=
  ⟨rfl, rfl, rfl, rfl⟩

/-- Claim C5: adding to the collection with no base appends exactly the
stack the public constructor builds: a singleton with the one entry and
the given snapshot. -/
theorem stacks_add_no_base (ss : Stacks) (label : String) (costs : Costs) (inl : Bool) :
    (Stacks.add ss label costs inl none).list = ss.list ++ [Stack.new label costs inl]
    ∧ Stack.new label costs inl = Stack.mk [StackEntry.mk inl label] costs :=
  ⟨rfl, rfl⟩

/-- Claim C6: membership semantics of contains — true iff some entry
has the given label and the given inline flag, and the reverse
traversal used by the implementation is observationally the same as a
forward traversal. -/
theorem stack_contains_iff (s : Stack) (item : String) (inl : Bool) :
    (s.contains item inl = true ↔ ∃ e ∈ s.entries, e.value = item ∧ e.is_inline = inl)
    ∧ s.contains item inl
        = s.entries.any (fun e => e.is_inline == inl && e.value == item) := by
  constructor
  · unfold Stack.contains
    simp only [List.any_eq_true, List.mem_reverse, Bool.and_eq_true, beq_iff_eq]
    constructor
    · rintro ⟨e, he, h1, h2⟩
      exact ⟨e, he, h2, h1⟩
    · rintro ⟨e, he, h1, h2⟩
      exact ⟨e, he, h2, h1⟩
  · unfold Stack.contains
    rw [List.any_reverse]

/-- Claim C9: a stack with an empty entry sequence (reachable through
the default constructor and the public fields, not through the public
constructor) renders to the empty string for every event type, with no
cost appended and no missing-metric failure even when the event type is
absent from the snapshot. -/
theorem stack_render_empty_entries (costs : Costs) (ev : EventType) :
    (Stack.mk [] costs).to_string ev = Except.ok "" :=
  rfl

/-- Claim C3: with an empty stack collection, create succeeds
immediately and performs no filesystem action at all — the returned
world is the input world and the action trace is empty. -/
theorem flamegraph_create_empty (fg : Flamegraph) (dest : FlamegraphOutput) (w : World)
    (h : fg.stackColl.is_empty = true) :
    Flamegraph.create fg dest w = (Except.ok (), w, []) := by
  unfold Flamegraph.create
  rw [h]
  rfl

/-- Witness for C3: a concrete empty collection. -/
theorem flamegraph_create_empty_witness :
    Stacks.is_empty (Stacks.mk []) = true
    ∧ Flamegraph.create (Flamegraph.mk ["Ir"] "t" (Stacks.mk []))
        (FlamegraphOutput.mk (OutPath.mk "p" "svg")) (mkWorld fun _ => none)
      = (Except.ok (), mkWorld fun _ => none, []) :=
  ⟨rfl, flamegraph_create_empty (Flamegraph.mk ["Ir"] "t" (Stacks.mk []))
    (FlamegraphOutput.mk (OutPath.mk "p" "svg")) (mkWorld fun _ => none) rfl⟩

/-- The missing-metric error message produced by the source. -/
def missingMetricMsg (ev : EventType) : String :=
  "Error creating flamegraph: Event type '" ++ ev ++ "' not found"

/-- Claim C2: a stack built through the public constructor, rendered
for an event type with no entry in its current snapshot, fails with the
metric-not-found error; and when such a stack is the first stack of a
non-empty collection and the event type is the first configured one,
the whole create call aborts with exactly that error. -/
theorem stack_render_missing_metric (label : String) (costs : Costs) (inl : Bool)
    (adds : List (String × Costs × Bool)) (ev : EventType)
    (h : (finalSnapshot costs adds).cost_by_type ev = none) :
    (buildStack label costs inl adds).to_string ev = Except.error (missingMetricMsg ev)
    ∧ ∀ (title : String) (restTypes : List EventType) (more : List Stack)
        (dest : FlamegraphOutput) (w : World),
        w.createFails dest.path = false →
        (Flamegraph.create
            (Flamegraph.mk (ev :: restTypes) title
              (Stacks.mk (buildStack label costs inl adds :: more)))
            dest w).1
          = Except.error (missingMetricMsg ev) := by
  have hfail : (buildStack label costs inl adds).to_string ev
      = Except.error (missingMetricMsg ev) := by
    rw [buildStack_eq]
    unfold Stack.to_string
    simp only [h]
    rfl
  refine ⟨hfail, ?_⟩
  intro title restTypes more dest w hw
  unfold Flamegraph.create
  have hne : (Stacks.mk (buildStack label costs inl adds :: more)).is_empty = false := rfl
  rw [hne]
  unfold FlamegraphOutput.create
  rw [hw]
  simp only [Bool.false_eq_true, if_false]
  unfold renderLoop serializeStacks
  rw [hfail]

/-- Witness for C2: a concrete stack whose snapshot lacks the requested
event type, aborting a concrete create call. -/
theorem stack_render_missing_metric_witness :
    (finalSnapshot (Costs.mk [("Ir", 7)]) []).cost_by_type "EstimatedCycles" = none
    ∧ (mkWorld fun _ => none).createFails (OutPath.mk "p" "svg") = false
    ∧ (buildStack "main" (Costs.mk [("Ir", 7)]) false []).to_string "EstimatedCycles"
        = Except.error (missingMetricMsg "EstimatedCycles")
    ∧ (Flamegraph.create
        (Flamegraph.mk ["EstimatedCycles"] "t"
          (Stacks.mk [buildStack "main" (Costs.mk [("Ir", 7)]) false []]))
        (FlamegraphOutput.mk (OutPath.mk "p" "svg")) (mkWorld fun _ => none)).1
      = Except.error (missingMetricMsg "EstimatedCycles") := by
  have h := stack_render_missing_metric "main" (Costs.mk [("Ir", 7)]) false [] "EstimatedCycles"
    (by decide)
  exact ⟨by decide, rfl, h.1, h.2 "t" [] [] (FlamegraphOutput.mk (OutPath.mk "p" "svg"))
    (mkWorld fun _ => none) rfl⟩

/-- Claim C7: init resolves the destination to the svg path; with no
file at that path it performs zero copy operations and returns the
resolved path with the world untouched; with a file there it copies it
to the svg.old sibling, whose content is then byte-identical to the
prior content; a copy failure makes init return the error instead of
succeeding. -/
theorem flamegraph_output_init_spec (w : World) (output : OutPath) :
    (w.files (withExtension output "svg") = none →
      FlamegraphOutput.init w output
        = Except.ok (FlamegraphOutput.mk (withExtension output "svg"), w, []))
    ∧ (∀ c, w.files (withExtension output "svg") = some c →
        w.copyFails (withExtension output "svg")
            (withExtension (withExtension output "svg") "svg.old") = false →
        FlamegraphOutput.init w output
          = Except.ok (FlamegraphOutput.mk (withExtension output "svg"),
              w.setFile (withExtension (withExtension output "svg") "svg.old") c,
              [FsOp.copyOp (withExtension output "svg")
                (withExtension (withExtension output "svg") "svg.old")])
          ∧ (w.setFile (withExtension (withExtension output "svg") "svg.old") c).files
              (withExtension (withExtension output "svg") "svg.old") = some c)
    ∧ (∀ c, w.files (withExtension output "svg") = some c →
        w.copyFails (withExtension output "svg")
            (withExtension (withExtension output "svg") "svg.old") = true →
        FlamegraphOutput.init w output
          = Except.error "Error copying flamegraph file") := by
  refine ⟨?_, ?_, ?_⟩
  · intro h
    simp [FlamegraphOutput.init, h]
  · intro c hc hcopy
    constructor
    · simp [FlamegraphOutput.init, World.copy, hc, hcopy]
    · unfold World.setFile
      simp
  · intro c hc hcopy
    simp [FlamegraphOutput.init, World.copy, hc, hcopy]

/-- Witness for C7: a concrete world holding a previous rendering at
the svg path; init backs it up to the svg.old sibling unchanged. -/
theorem flamegraph_output_init_spec_witness :
    (mkWorld fun q => if q = OutPath.mk "p" "svg" then some "OLD" else none).files
        (withExtension (OutPath.mk "p" "out") "svg") = some "OLD"
    ∧ (mkWorld fun q => if q = OutPath.mk "p" "svg" then some "OLD" else none).copyFails
        (withExtension (OutPath.mk "p" "out") "svg")
        (withExtension (withExtension (OutPath.mk "p" "out") "svg") "svg.old") = false
    ∧ FlamegraphOutput.init
        (mkWorld fun q => if q = OutPath.mk "p" "svg" then some "OLD" else none)
        (OutPath.mk "p" "out")
      = Except.ok (FlamegraphOutput.mk (withExtension (OutPath.mk "p" "out") "svg"),
          (mkWorld fun q => if q = OutPath.mk "p" "svg" then some "OLD" else none).setFile
            (withExtension (withExtension (OutPath.mk "p" "out") "svg") "svg.old") "OLD",
          [FsOp.copyOp (withExtension (OutPath.mk "p" "out") "svg")
            (withExtension (withExtension (OutPath.mk "p" "out") "svg") "svg.old")])
    ∧ ((mkWorld fun q => if q = OutPath.mk "p" "svg" then some "OLD" else none).setFile
          (withExtension (withExtension (OutPath.mk "p" "out") "svg") "svg.old") "OLD").files
        (withExtension (withExtension (OutPath.mk "p" "out") "svg") "svg.old") = some "OLD" := by
  have h := (flamegraph_output_init_spec
      (mkWorld fun q => if q = OutPath.mk "p" "svg" then some "OLD" else none)
      (OutPath.mk "p" "out")).2.1 "OLD" (by decide) rfl
  exact ⟨by decide, rfl, h.1, h.2⟩

/-- Recognizes the file-creation action in a trace. -/
def isCreateOp : FsOp → Bool
  | FsOp.createOp _ => true
  | _ => false

/-- One event type renders without error: every stack serializes for it
and the external renderer accepts the produced line set. -/
def eventRenders (w : World) (title : String) (stacksL : List Stack)
    (ev : EventType) : Prop :=
  ∃ lines, serializeStacks stacksL ev = Except.ok lines
    ∧ w.renderFails title ev lines = false

/-- The folded-stack lines of a collection for one event type, when
serialization succeeds. -/
def linesFor (stacksL : List Stack) (ev : EventType) : List String :=
  match serializeStacks stacksL ev with
  | Except.ok lines => lines
  | Except.error _ => []

lemma renderLoop_ok_iff (title : String) (stacksL : List Stack) (p : OutPath) :
    ∀ (evs : List EventType) (w : World) (tr : List FsOp),
      (renderLoop title stacksL p evs w tr).1 = Except.ok ()
        ↔ ∀ ev ∈ evs, eventRenders w title stacksL ev := by
  intro evs
  induction evs with
  | nil => intro w tr; simp [renderLoop]
  | cons ev rest ih =>
    intro w tr
    cases hs : serializeStacks stacksL ev with
    | error e =>
      simp [renderLoop, hs, eventRenders, List.forall_mem_cons]
    | ok lines =>
      cases hr : w.renderFails title ev lines with
      | true =>
        simp [renderLoop, hs, hr, eventRenders, List.forall_mem_cons]
      | false =>
        simp only [renderLoop, hs, hr, Bool.false_eq_true, if_false]
        rw [ih]
        constructor
        · intro hrest e he
          rcases List.mem_cons.mp he with rfl | hm
          · exact ⟨lines, hs, hr⟩
          · exact hrest e hm
        · intro hall e he
          exact hall e (List.mem_cons_of_mem _ he)

lemma renderLoop_countP_createOp (title : String) (stacksL : List Stack) (p : OutPath) :
    ∀ (evs : List EventType) (w : World) (tr : List FsOp),
      ((renderLoop title stacksL p evs w tr).2.2).countP isCreateOp
        = tr.countP isCreateOp := by
  intro evs
  induction evs with
  | nil => intro w tr; simp [renderLoop]
  | cons ev rest ih =>
    intro w tr
    cases hs : serializeStacks stacksL ev with
    | error e => simp [renderLoop, hs]
    | ok lines =>
      cases hr : w.renderFails title ev lines with
      | true =>
        simp [renderLoop, hs, hr, List.countP_append, List.countP_cons, isCreateOp]
      | false =>
        simp only [renderLoop, hs, hr, Bool.false_eq_true, if_false]
        rw [ih]
        simp [List.countP_append, List.countP_cons, isCreateOp]

lemma renderLoop_trace_extends (title : String) (stacksL : List Stack) (p : OutPath) :
    ∀ (evs : List EventType) (w : World) (tr : List FsOp),
      ∃ tl, (renderLoop title stacksL p evs w tr).2.2 = tr ++ tl := by
  intro evs
  induction evs with
  | nil => intro w tr; exact ⟨[], by simp [renderLoop]⟩
  | cons ev rest ih =>
    intro w tr
    cases hs : serializeStacks stacksL ev with
    | error e => exact ⟨[], by simp [renderLoop, hs]⟩
    | ok lines =>
      cases hr : w.renderFails title ev lines with
      | true =>
        exact ⟨[FsOp.renderOp title ev lines p], by simp [renderLoop, hs, hr]⟩
      | false =>
        obtain ⟨tl, htl⟩ := ih (w.appendFile p (w.renderOutput title ev lines))
          (tr ++ [FsOp.renderOp title ev lines p])
        refine ⟨[FsOp.renderOp title ev lines p] ++ tl, ?_⟩
        simp only [renderLoop, hs, hr, Bool.false_eq_true, if_false]
        rw [htl, List.append_assoc]

lemma renderLoop_trace_all_ok (title : String) (stacksL : List Stack) (p : OutPath) :
    ∀ (evs : List EventType) (w : World) (tr : List FsOp),
      (∀ ev ∈ evs, eventRenders w title stacksL ev) →
      (renderLoop title stacksL p evs w tr).2.2
        = tr ++ evs.map (fun ev => FsOp.renderOp title ev (linesFor stacksL ev) p) := by
  intro evs
  induction evs with
  | nil => intro w tr _; simp [renderLoop]
  | cons ev rest ih =>
    intro w tr hall
    obtain ⟨lines, hs, hr⟩ := hall ev (List.mem_cons_self ev rest)
    simp only [renderLoop, hs, hr, Bool.false_eq_true, if_false]
    have hall2 : ∀ e ∈ rest,
        eventRenders (w.appendFile p (w.renderOutput title ev lines)) title stacksL e :=
      fun e he => hall e (List.mem_cons_of_mem _ he)
    rw [ih _ _ hall2]
    have hlf : linesFor stacksL ev = lines := by simp [linesFor, hs]
    rw [← hlf]
    simp

lemma renderLoop_preserves_other (title : String) (stacksL : List Stack) (p : OutPath) :
    ∀ (evs : List EventType) (w : World) (tr : List FsOp) (q : OutPath), q ≠ p →
      ((renderLoop title stacksL p evs w tr).2.1).files q = w.files q := by
  intro evs
  induction evs with
  | nil => intro w tr q _; rfl
  | cons ev rest ih =>
    intro w tr q hq
    cases hs : serializeStacks stacksL ev with
    | error e => simp [renderLoop, hs]
    | ok lines =>
      cases hr : w.renderFails title ev lines with
      | true => simp [renderLoop, hs, hr]
      | false =>
        simp only [renderLoop, hs, hr, Bool.false_eq_true, if_false]
        rw [ih _ _ _ hq]
        simp [World.appendFile, World.setFile, hq]

lemma flamegraph_create_nonempty (fg : Flamegraph) (dest : FlamegraphOutput) (w : World)
    (h1 : fg.stackColl.is_empty = false) (h2 : w.createFails dest.path = false) :
    Flamegraph.create fg dest w
      = renderLoop fg.title fg.stackColl.list dest.path fg.types
          (w.setFile dest.path "") [FsOp.createOp dest.path] := by
  simp [Flamegraph.create, FlamegraphOutput.create, h1, h2]

/-- Claim C8: with a non-empty collection, create opens the destination
exactly once (one creation action in the trace), succeeds exactly when
every configured event type renders without error, and in that case the
trace is the single open followed, for each event type in the given
order, by one renderer invocation carrying the title, the event type's
display name as metric label, the folded-stack lines of every stack in
insertion order, and the one shared destination. -/
theorem flamegraph_create_per_event_type (fg : Flamegraph) (dest : FlamegraphOutput)
    (w : World) (h1 : fg.stackColl.is_empty = false)
    (h2 : w.createFails dest.path = false) :
    ((Flamegraph.create fg dest w).1 = Except.ok ()
        ↔ ∀ ev ∈ fg.types, eventRenders w fg.title fg.stackColl.list ev)
    ∧ ((Flamegraph.create fg dest w).2.2).countP isCreateOp = 1
    ∧ ((∀ ev ∈ fg.types, eventRenders w fg.title fg.stackColl.list ev) →
        (Flamegraph.create fg dest w).2.2
          = FsOp.createOp dest.path
              :: fg.types.map (fun ev =>
                  FsOp.renderOp fg.title ev (linesFor fg.stackColl.list ev) dest.path)) := by
  rw [flamegraph_create_nonempty fg dest w h1 h2]
  refine ⟨?_, ?_, ?_⟩
  · rw [renderLoop_ok_iff]
    exact Iff.rfl
  · rw [renderLoop_countP_createOp]
    rfl
  · intro hall
    have hall2 : ∀ ev ∈ fg.types,
        eventRenders (w.setFile dest.path "") fg.title fg.stackColl.list ev :=
      fun ev hev => hall ev hev
    rw [renderLoop_trace_all_ok _ _ _ _ _ _ hall2]
    rfl

/-- Witness for C8: one stack, one event type, a world where all I/O
succeeds; the create call succeeds. -/
theorem flamegraph_create_per_event_type_witness :
    Stacks.is_empty (Stacks.mk [Stack.new "main" (Costs.mk [("Ir", 1)]) false]) = false
    ∧ (mkWorld fun _ => none).createFails (OutPath.mk "p" "svg") = false
    ∧ (Flamegraph.create
        (Flamegraph.mk ["Ir"] "title"
          (Stacks.mk [Stack.new "main" (Costs.mk [("Ir", 1)]) false]))
        (FlamegraphOutput.mk (OutPath.mk "p" "svg")) (mkWorld fun _ => none)).1
      = Except.ok () := by
  refine ⟨rfl, rfl, ?_⟩
  refine (flamegraph_create_per_event_type
      (Flamegraph.mk ["Ir"] "title" (Stacks.mk [Stack.new "main" (Costs.mk [("Ir", 1)]) false]))
      (FlamegraphOutput.mk (OutPath.mk "p" "svg")) (mkWorld fun _ => none)
      rfl rfl).1.mpr ?_
  intro ev hev
  have hev2 : ev = "Ir" := by simpa using hev
  subst hev2
  exact ⟨["main 1"], rfl, rfl⟩

lemma setFile_setFile (w : World) (p : OutPath) (x c : String) :
    (w.setFile p x).setFile p c = w.setFile p c := by
  unfold World.setFile
  congr 1
  funext q
  by_cases h : q = p <;> simp [h]

/-- Claim C10: with a non-empty collection and a destination the
filesystem lets us open, create truncates the destination first —
the first recorded action is the open — so the run's outcome and final
state are independent of whatever content the destination held before,
even when a later missing-metric or renderer failure makes the call
return an error; only sibling paths (such as the svg.old backup written
by a preceding init) keep their content. -/
theorem flamegraph_create_truncates_first (fg : Flamegraph) (dest : FlamegraphOutput)
    (w : World) (h1 : fg.stackColl.is_empty = false)
    (h2 : w.createFails dest.path = false) :
    ((Flamegraph.create fg dest w).2.2).head? = some (FsOp.createOp dest.path)
    ∧ (∀ x, Flamegraph.create fg dest (w.setFile dest.path x) = Flamegraph.create fg dest w)
    ∧ (∀ q, q ≠ dest.path → ((Flamegraph.create fg dest w).2.1).files q = w.files q) := by
  refine ⟨?_, ?_, ?_⟩
  · rw [flamegraph_create_nonempty fg dest w h1 h2]
    obtain ⟨tl, htl⟩ := renderLoop_trace_extends fg.title fg.stackColl.list dest.path
      fg.types (w.setFile dest.path "") [FsOp.createOp dest.path]
    rw [htl]
    rfl
  · intro x
    have h2x : (w.setFile dest.path x).createFails dest.path = false := h2
    rw [flamegraph_create_nonempty fg dest (w.setFile dest.path x) h1 h2x,
      flamegraph_create_nonempty fg dest w h1 h2, setFile_setFile]
  · intro q hq
    rw [flamegraph_create_nonempty fg dest w h1 h2,
      renderLoop_preserves_other _ _ _ _ _ _ _ hq]
    simp [World.setFile, hq]

/-- Witness for C10: one stack whose snapshot lacks the requested event
type, over a world holding previous content at the destination; create
fails but the destination was already truncated. -/
theorem flamegraph_create_truncates_first_witness :
    Stacks.is_empty (Stacks.mk [Stack.new "main" (Costs.mk []) false]) = false
    ∧ (mkWorld fun q => if q = OutPath.mk "p" "svg" then some "OLD" else none).createFails
        (OutPath.mk "p" "svg") = false
    ∧ ((Flamegraph.create
        (Flamegraph.mk ["Ir"] "t" (Stacks.mk [Stack.new "main" (Costs.mk []) false]))
        (FlamegraphOutput.mk (OutPath.mk "p" "svg"))
        (mkWorld fun q => if q = OutPath.mk "p" "svg" then some "OLD" else none)).2.2).head?
      = some (FsOp.createOp (OutPath.mk "p" "svg")) := by
  refine ⟨rfl, rfl, ?_⟩
  exact (flamegraph_create_truncates_first
    (Flamegraph.mk ["Ir"] "t" (Stacks.mk [Stack.new "main" (Costs.mk []) false]))
    (FlamegraphOutput.mk (OutPath.mk "p" "svg"))
    (mkWorld fun q => if q = OutPath.mk "p" "svg" then some "OLD" else none) rfl rfl).1
